import Mathlib

/-!
Verification development for the MaiZone browser extension's state
synchronization core.

The definitions below are a shallow embedding of the pure functions in
`state_core.js` (schema, normalization, invariants, diff), of the message
handlers and the serialized update chain in `background_state.js`, of the
shared allowlists in `state_contract.js`, and of the hostname matching
helpers in `distraction_matcher.js` / `intent_gate_helpers.js`.

Modelling conventions:
- JavaScript numbers are modelled by `JNum`: either a finite rational or
  one of the non-finite values (`NaN`, `Infinity`, `-Infinity`).  All the
  numeric code under study only branches on `Number.isFinite` and on
  order comparisons of finite values, so rationals are a faithful carrier.
- An arbitrary JavaScript value is modelled by `JVal`; the constructor
  `JVal.other` stands for every value that is not `null`, not a boolean,
  not a number, not a string and not an array (objects, `undefined`,
  functions, ...).  The sanitizers only ever test those five categories.
- A sanitized state (the output type of `sanitizeStoredState` /
  `computeNextState`) is the typed record `State`: nullable numeric fields
  are `Option ℚ` (`none` = `null`), site lists are `List String`.
- A patch (`updates` argument of `computeNextState`) is the record
  `Patch` of `Option JVal` fields: `none` models a key that is absent
  (`'key' in updates` is false), `some v` a key present with value `v`.
-/

namespace MaiZone

/-- Model of a JavaScript number: finite (a rational) or non-finite. -/
inductive JNum where
  | fin (q : ℚ)
  | nan
  | inf
  | ninf
deriving DecidableEq

/-- Model of an arbitrary JavaScript value as seen by the sanitizers in
`state_core.js`.  `other` covers every value that fails all of the
`typeof`/`Array.isArray` tests used there (plain objects, `undefined`,
functions, symbols, ...). -/
inductive JVal where
  | null
  | boolean (b : Bool)
  | number (n : JNum)
  | string (s : String)
  | array (xs : List JVal)
  | other

/-- The canonical state record of `state_core.js` (the shape of
`DEFAULT_STATE` and of every value produced by `sanitizeStoredState` or
`computeNextState`). -/
structure State where
  currentTask : String
  isInFlow : Bool
  intentGateEnabled : Bool
  breakReminderEnabled : Bool
  mindfulnessReminderEnabled : Bool
  hasSeenOnboarding : Bool
  distractingSites : List String
  deepWorkBlockedSites : List String
  reminderStartTime : Option ℚ
  reminderInterval : Option ℚ
  reminderExpectedEndTime : Option ℚ
  mindfulnessLastShownAt : Option ℚ
  exerciseReminderEnabled : Bool
  exerciseIntervalMs : Option ℚ
  exerciseExpectedAt : Option ℚ
  exerciseRemainingMs : Option ℚ
  exerciseStatsDate : Option String
  exerciseStatsPushUps : ℚ
  exerciseStatsSitUps : ℚ
  exerciseStatsSquats : ℚ
deriving DecidableEq

attribute [ext] State

/-- `DEFAULT_DISTRACTING_SITES` from `constants.js` (in source order). -/
def DEFAULT_DISTRACTING_SITES : List String :=
  ["youtube.com", "facebook.com", "twitter.com", "x.com", "instagram.com",
   "reddit.com", "tiktok.com", "netflix.com", "spotify.com",
   "soundcloud.com", "vnexpress.net", "dantri.com.vn", "cafef.vn"]

/-- `DEFAULT_DEEPWORK_BLOCKED_SITES` from `constants.js`. -/
def DEFAULT_DEEPWORK_BLOCKED_SITES : List String :=
  ["discord.com", "messenger.com", "whatsapp.com"]

/-- `DEFAULT_STATE` from `state_core.js`. -/
def DEFAULT_STATE : State where
  currentTask := ""
  isInFlow := false
  intentGateEnabled := true
  breakReminderEnabled := false
  mindfulnessReminderEnabled := false
  hasSeenOnboarding := false
  distractingSites := DEFAULT_DISTRACTING_SITES
  deepWorkBlockedSites := DEFAULT_DEEPWORK_BLOCKED_SITES
  reminderStartTime := none
  reminderInterval := none
  reminderExpectedEndTime := none
  mindfulnessLastShownAt := none
  exerciseReminderEnabled := true
  exerciseIntervalMs := none
  exerciseExpectedAt := none
  exerciseRemainingMs := none
  exerciseStatsDate := none
  exerciseStatsPushUps := 0
  exerciseStatsSitUps := 0
  exerciseStatsSquats := 0

/-- `getDefaultState()` — in JS it clones the site-list arrays so callers
cannot mutate the frozen default; under value semantics the clone is the
same value. -/
def getDefaultState : State := DEFAULT_STATE

/-! Computable models of the JavaScript string primitives used by the
source (defined over the character list of the string so that every
definition evaluates by kernel reduction). -/

/-- Leading-whitespace strip, one side of `String.prototype.trim`. -/
def listTrimLeft : List Char → List Char
  | [] => []
  | c :: rest => if c.isWhitespace then listTrimLeft rest else c :: rest

/-- `s.trim()` — strip leading and trailing whitespace. -/
def jsTrim (s : String) : String :=
  ⟨(listTrimLeft (listTrimLeft s.data).reverse).reverse⟩

/-- `s.toLowerCase()` restricted to ASCII letters (the only case the
hostname pipeline can keep anyway, since the final character-class check
rejects every non-ASCII character). -/
def jsToLower (s : String) : String := ⟨s.data.map Char.toLower⟩

/-- Boolean list prefix test. -/
def listIsPrefixOf : List Char → List Char → Bool
  | [], _ => true
  | _ :: _, [] => false
  | a :: as, b :: bs => a = b && listIsPrefixOf as bs

/-- `s.startsWith(pre)`. -/
def jsStartsWith (s pre : String) : Bool := listIsPrefixOf pre.data s.data

/-- `s.endsWith(suf)`. -/
def jsEndsWith (s suf : String) : Bool := listIsPrefixOf suf.data.reverse s.data.reverse

/-- Drop the first `n` characters of `s`. -/
def jsDrop (s : String) (n : ℕ) : String := ⟨s.data.drop n⟩

/-- Keep the first `n` characters of `s` (`s.slice(0, n)`). -/
def jsTake (s : String) (n : ℕ) : String := ⟨s.data.take n⟩

/-- `s.length`.  JavaScript counts UTF-16 code units while this counts
code points; the two agree on every string the hostname pipeline can
accept (ASCII) and the difference never affects the properties proved
here. -/
def jsLength (s : String) : ℕ := s.data.length

/-- `s.includes('..')` — the only substring containment test the source
needs. -/
def listHasDoubleDot : List Char → Bool
  | '.' :: '.' :: _ => true
  | _ :: rest => listHasDoubleDot rest
  | [] => false

/-! Normalization helpers of `state_core.js`. -/

/-- `normalizeBoolean(value, fallback)` — accepts only an actual boolean. -/
def normalizeBoolean (value : JVal) (fallback : Bool) : Bool :=
  match value with
  | .boolean b => b
  | _ => fallback

/-- `normalizeString(value, fallback)` — accepts only an actual string.
The fallback (and hence the result) may be `null`, which we render as
`none`. -/
def normalizeString (value : JVal) (fallback : Option String) : Option String :=
  match value with
  | .string s => some s
  | _ => fallback

/-- `normalizeNumberOrNull(value, fallback)` — `null` stays `null`; a
finite number is kept; everything else (non-numbers, `NaN`, infinities)
falls back. -/
def normalizeNumberOrNull (value : JVal) (fallback : Option ℚ) : Option ℚ :=
  match value with
  | .null => none
  | .number (.fin q) => some q
  | .number _ => fallback
  | _ => fallback

/-- `MIN_INTERVAL_MS` (`60 * 1000`, written as a literal). -/
def MIN_INTERVAL_MS : ℚ := 60000

/-- `MAX_INTERVAL_MS` (`24 * 60 * 60 * 1000`, written as a literal). -/
def MAX_INTERVAL_MS : ℚ := 86400000

/-- `EXERCISE_DEFAULT_INTERVAL_MS` (`45 * 60 * 1000`, written as a literal). -/
def EXERCISE_DEFAULT_INTERVAL_MS : ℚ := 2700000

/-- `normalizeIntervalMs(value, fallback)` — like `normalizeNumberOrNull`
but a finite number outside `[MIN_INTERVAL_MS, MAX_INTERVAL_MS]` also
falls back. -/
def normalizeIntervalMs (value : JVal) (fallback : Option ℚ) : Option ℚ :=
  match value with
  | .null => none
  | .number (.fin q) =>
      if q < MIN_INTERVAL_MS ∨ q > MAX_INTERVAL_MS then fallback else some q
  | .number _ => fallback
  | _ => fallback

/-- `MAX_TASK_LENGTH`. -/
def MAX_TASK_LENGTH : ℕ := 120

/-- `normalizeTask(value, fallback)` — strings are trimmed and truncated
to `MAX_TASK_LENGTH`; non-strings fall back. -/
def normalizeTask (value : JVal) (fallback : String) : String :=
  match value with
  | .string s =>
      let trimmed := jsTrim s
      if trimmed = "" then ""
      else if jsLength trimmed > MAX_TASK_LENGTH then jsTake trimmed MAX_TASK_LENGTH
      else trimmed
  | _ => fallback

/-- `MAX_SITE_LIST_ITEMS`. -/
def MAX_SITE_LIST_ITEMS : ℕ := 200

/-- The protocol strip `raw.replace(/^https?:\/\//, '')` in
`normalizeDomainList`. -/
def stripHttpProtocol (raw : String) : String :=
  if jsStartsWith raw "http://" then jsDrop raw 7
  else if jsStartsWith raw "https://" then jsDrop raw 8
  else raw

/-- `s.split(c)[0]` — the prefix of `s` before the first occurrence of
the character `c`. -/
def takeBeforeChar (s : String) (c : Char) : String :=
  ⟨s.data.takeWhile (fun ch => ch ≠ c)⟩

/-- The `www.` strip `hostname.replace(/^www\./, '')`. -/
def stripWwwDot (hostname : String) : String :=
  if jsStartsWith hostname "www." then jsDrop hostname 4 else hostname

/-- One character of the `^[a-z0-9.-]+$` hostname character class. -/
def isHostChar (c : Char) : Bool :=
  ('a' ≤ c && c ≤ 'z') || ('0' ≤ c && c ≤ '9') || c = '.' || c = '-'

/-- The validity filter applied to each candidate hostname inside the
`normalizeDomainList` loop (the sequence of `continue` guards). -/
def isValidHostname (hostname : String) : Bool :=
  hostname ≠ "" &&
  jsLength hostname ≤ 253 &&
  hostname.data.contains '.' &&
  !jsStartsWith hostname "." &&
  !jsEndsWith hostname "." &&
  !listHasDoubleDot hostname.data &&
  !hostname.data.any Char.isWhitespace &&
  hostname.data.all isHostChar

/-- The hostname extraction performed on one raw (already trimmed and
lowercased) entry of `normalizeDomainList`: strip the scheme, cut at the
first `/`, `?` and `#`, strip a leading `www.`. -/
def extractHostname (raw : String) : String :=
  let withoutProtocol := stripHttpProtocol raw
  stripWwwDot
    (takeBeforeChar (takeBeforeChar (takeBeforeChar withoutProtocol '/') '?') '#')

/-- The per-element head of the `normalizeDomainList` loop body: `continue`
on a non-string, on an empty trimmed entry and on an invalid extracted
hostname; otherwise yield the extracted hostname.  The intermediate
bindings `raw` and `hostname` of the source are written inline. -/
def candidateHostname (rawValue : JVal) : Option String :=
  match rawValue with
  | .string s =>
      if jsToLower (jsTrim s) = "" then none
      else if !isValidHostname (extractHostname (jsToLower (jsTrim s))) then none
      else some (extractHostname (jsToLower (jsTrim s)))
  | _ => none

/-- The accumulation loop of `normalizeDomainList`: skipped entries leave
`out` alone, duplicates are skipped (the `seen` set always holds exactly
the entries already pushed into `out`), and the loop breaks right after
pushing the `maxItems`-th entry. -/
def collectDomains (maxItems : ℕ) : List JVal → List String → List String
  | [], out => out
  | rawValue :: rest, out =>
    match candidateHostname rawValue with
    | none => collectDomains maxItems rest out
    | some hostname =>
        if out.contains hostname then collectDomains maxItems rest out
        else if maxItems ≤ (out ++ [hostname]).length then out ++ [hostname]
        else collectDomains maxItems rest (out ++ [hostname])

/-- `normalizeDomainList(value, fallback, { maxItems })` — a non-array is
replaced by the fallback as-is; an array is filtered, deduplicated,
capped and finally sorted (`out.sort()`). -/
def normalizeDomainList (value : JVal) (fallback : List String)
    (maxItems : ℕ := MAX_SITE_LIST_ITEMS) : List String :=
  match value with
  | .array xs => List.insertionSort (fun a b => a ≤ b) (collectDomains maxItems xs [])
  | _ => fallback

/-! The validity invariants (`enforceStateValidity`), written as the same
sequence of conditional corrections as the source. -/

/-- Step `if (!sanitized.currentTask) sanitized.currentTask = ''` — on a
string field this only rewrites `""` to `""`. -/
def enforceTaskIsString (s : State) : State :=
  if s.currentTask = "" then { s with currentTask := "" } else s

/-- Step `if (sanitized.isInFlow && !sanitized.currentTask) isInFlow = false`. -/
def enforceFlowRequiresTask (s : State) : State :=
  if s.isInFlow = true ∧ s.currentTask = "" then { s with isInFlow := false } else s

/-- Step `if (!sanitized.isInFlow || !sanitized.currentTask)` — clear the
flow flag, the break-reminder enable flag and the three focus-session
timer fields. -/
def enforceNoFlowClearsTimer (s : State) : State :=
  if s.isInFlow = false ∨ s.currentTask = "" then
    { s with isInFlow := false, breakReminderEnabled := false,
             reminderStartTime := none, reminderInterval := none,
             reminderExpectedEndTime := none }
  else s

/-- Step assigning the default exercise interval when the exercise
reminder is enabled with no interval set. -/
def enforceExerciseIntervalDefault (s : State) : State :=
  if s.exerciseReminderEnabled = true ∧ s.exerciseIntervalMs = none then
    { s with exerciseIntervalMs := some EXERCISE_DEFAULT_INTERVAL_MS }
  else s

/-- Step `Math.max(0, Number.isFinite(x) ? x : 0)` for the three exercise
counters.  In the typed state a counter is always a finite rational, so
the `Number.isFinite` guard is identically true and only the clamp at 0
remains. -/
def clampExerciseStats (s : State) : State :=
  { s with exerciseStatsPushUps := max 0 s.exerciseStatsPushUps,
           exerciseStatsSitUps := max 0 s.exerciseStatsSitUps,
           exerciseStatsSquats := max 0 s.exerciseStatsSquats }

/-- `enforceStateValidity(nextState)` — the corrections above, in source
order. -/
def enforceStateValidity (nextState : State) : State :=
  clampExerciseStats
    (enforceExerciseIntervalDefault
      (enforceNoFlowClearsTimer
        (enforceFlowRequiresTask
          (enforceTaskIsString nextState))))

/-- `enforceStateInvariants` — compat wrapper around
`enforceStateValidity`. -/
def enforceStateInvariants (nextState : State) : State :=
  enforceStateValidity nextState

/-! `sanitizeStoredState`. -/

/-- The raw record read from `chrome.storage.local`: every schema key maps
to an arbitrary JavaScript value (a missing key reads as `undefined`,
which is `JVal.other`). -/
structure RawStored where
  currentTask : JVal := .other
  isInFlow : JVal := .other
  intentGateEnabled : JVal := .other
  breakReminderEnabled : JVal := .other
  mindfulnessReminderEnabled : JVal := .other
  hasSeenOnboarding : JVal := .other
  distractingSites : JVal := .other
  deepWorkBlockedSites : JVal := .other
  reminderStartTime : JVal := .other
  reminderInterval : JVal := .other
  reminderExpectedEndTime : JVal := .other
  mindfulnessLastShownAt : JVal := .other
  exerciseReminderEnabled : JVal := .other
  exerciseIntervalMs : JVal := .other
  exerciseExpectedAt : JVal := .other
  exerciseRemainingMs : JVal := .other
  exerciseStatsDate : JVal := .other
  exerciseStatsPushUps : JVal := .other
  exerciseStatsSitUps : JVal := .other
  exerciseStatsSquats : JVal := .other

/-- `sanitizeStoredState(storedState)` — `storedState || {}` is modelled
by `Option RawStored` (`none` = a falsy argument; the empty object reads
`undefined` for every key, i.e. the default `RawStored`).  The JS spread
`{ ...base, ...merged }` equals `merged` because `merged` lists every
schema key. -/
def sanitizeStoredState (storedState : Option RawStored) : State :=
  let base := getDefaultState
  let stored := storedState.getD {}
  let merged : State :=
    { currentTask := normalizeTask stored.currentTask base.currentTask
      isInFlow := normalizeBoolean stored.isInFlow base.isInFlow
      intentGateEnabled := normalizeBoolean stored.intentGateEnabled base.intentGateEnabled
      breakReminderEnabled := normalizeBoolean stored.breakReminderEnabled base.breakReminderEnabled
      mindfulnessReminderEnabled :=
        normalizeBoolean stored.mindfulnessReminderEnabled base.mindfulnessReminderEnabled
      hasSeenOnboarding := normalizeBoolean stored.hasSeenOnboarding base.hasSeenOnboarding
      distractingSites :=
        normalizeDomainList stored.distractingSites base.distractingSites MAX_SITE_LIST_ITEMS
      deepWorkBlockedSites :=
        normalizeDomainList stored.deepWorkBlockedSites base.deepWorkBlockedSites MAX_SITE_LIST_ITEMS
      reminderStartTime := normalizeNumberOrNull stored.reminderStartTime base.reminderStartTime
      reminderInterval := normalizeIntervalMs stored.reminderInterval base.reminderInterval
      reminderExpectedEndTime :=
        normalizeNumberOrNull stored.reminderExpectedEndTime base.reminderExpectedEndTime
      mindfulnessLastShownAt :=
        normalizeNumberOrNull stored.mindfulnessLastShownAt base.mindfulnessLastShownAt
      exerciseReminderEnabled :=
        normalizeBoolean stored.exerciseReminderEnabled base.exerciseReminderEnabled
      exerciseIntervalMs := normalizeIntervalMs stored.exerciseIntervalMs base.exerciseIntervalMs
      exerciseExpectedAt := normalizeNumberOrNull stored.exerciseExpectedAt base.exerciseExpectedAt
      exerciseRemainingMs := normalizeNumberOrNull stored.exerciseRemainingMs base.exerciseRemainingMs
      exerciseStatsDate := normalizeString stored.exerciseStatsDate base.exerciseStatsDate
      exerciseStatsPushUps :=
        (normalizeNumberOrNull stored.exerciseStatsPushUps (some base.exerciseStatsPushUps)).getD
          base.exerciseStatsPushUps
      exerciseStatsSitUps :=
        (normalizeNumberOrNull stored.exerciseStatsSitUps (some base.exerciseStatsSitUps)).getD
          base.exerciseStatsSitUps
      exerciseStatsSquats :=
        (normalizeNumberOrNull stored.exerciseStatsSquats (some base.exerciseStatsSquats)).getD
          base.exerciseStatsSquats }
  enforceStateInvariants merged

/-! `computeNextState`. -/

/-- A partial update object: `none` models an absent key (`'key' in
updates` false), `some v` a present key of value `v`.  Unknown extra keys
are invisible to `computeNextState`, which only ever reads the schema
keys. -/
structure Patch where
  currentTask : Option JVal := none
  isInFlow : Option JVal := none
  intentGateEnabled : Option JVal := none
  breakReminderEnabled : Option JVal := none
  mindfulnessReminderEnabled : Option JVal := none
  hasSeenOnboarding : Option JVal := none
  distractingSites : Option JVal := none
  deepWorkBlockedSites : Option JVal := none
  reminderStartTime : Option JVal := none
  reminderInterval : Option JVal := none
  reminderExpectedEndTime : Option JVal := none
  mindfulnessLastShownAt : Option JVal := none
  exerciseReminderEnabled : Option JVal := none
  exerciseIntervalMs : Option JVal := none
  exerciseExpectedAt : Option JVal := none
  exerciseRemainingMs : Option JVal := none
  exerciseStatsDate : Option JVal := none
  exerciseStatsPushUps : Option JVal := none
  exerciseStatsSitUps : Option JVal := none
  exerciseStatsSquats : Option JVal := none

/-- The empty patch: an update object none of whose keys is a known
schema field. -/
def emptyPatch : Patch := {}

/-- One `if ('key' in updates) sanitized.key = norm(updates.key, current.key)`
step: an absent key leaves the current value, a present key is
re-normalized against the current value. -/
def patchField {α : Type} (v : Option JVal) (norm : JVal → α → α) (cur : α) : α :=
  match v with
  | none => cur
  | some jv => norm jv cur

/-- The counter update `normalizeNumberOrNull(v, current) ?? current` used
for the three exercise counters. -/
def normalizeCounterPatch (value : JVal) (cur : ℚ) : ℚ :=
  (normalizeNumberOrNull value (some cur)).getD cur

/-- The `sanitized` merge `{ ...current, ...sanitized }` of
`computeNextState`: only keys present in the patch are re-normalized, all
others pass through. -/
def applyUpdates (current : State) (updates : Patch) : State :=
  { currentTask := patchField updates.currentTask normalizeTask current.currentTask
    isInFlow := patchField updates.isInFlow normalizeBoolean current.isInFlow
    intentGateEnabled :=
      patchField updates.intentGateEnabled normalizeBoolean current.intentGateEnabled
    breakReminderEnabled :=
      patchField updates.breakReminderEnabled normalizeBoolean current.breakReminderEnabled
    mindfulnessReminderEnabled :=
      patchField updates.mindfulnessReminderEnabled normalizeBoolean
        current.mindfulnessReminderEnabled
    hasSeenOnboarding :=
      patchField updates.hasSeenOnboarding normalizeBoolean current.hasSeenOnboarding
    distractingSites :=
      patchField updates.distractingSites
        (fun v cur => normalizeDomainList v cur MAX_SITE_LIST_ITEMS) current.distractingSites
    deepWorkBlockedSites :=
      patchField updates.deepWorkBlockedSites
        (fun v cur => normalizeDomainList v cur MAX_SITE_LIST_ITEMS) current.deepWorkBlockedSites
    reminderStartTime :=
      patchField updates.reminderStartTime normalizeNumberOrNull current.reminderStartTime
    reminderInterval :=
      patchField updates.reminderInterval normalizeIntervalMs current.reminderInterval
    reminderExpectedEndTime :=
      patchField updates.reminderExpectedEndTime normalizeNumberOrNull
        current.reminderExpectedEndTime
    mindfulnessLastShownAt :=
      patchField updates.mindfulnessLastShownAt normalizeNumberOrNull
        current.mindfulnessLastShownAt
    exerciseReminderEnabled :=
      patchField updates.exerciseReminderEnabled normalizeBoolean current.exerciseReminderEnabled
    exerciseIntervalMs :=
      patchField updates.exerciseIntervalMs normalizeIntervalMs current.exerciseIntervalMs
    exerciseExpectedAt :=
      patchField updates.exerciseExpectedAt normalizeNumberOrNull current.exerciseExpectedAt
    exerciseRemainingMs :=
      patchField updates.exerciseRemainingMs normalizeNumberOrNull current.exerciseRemainingMs
    exerciseStatsDate :=
      patchField updates.exerciseStatsDate normalizeString current.exerciseStatsDate
    exerciseStatsPushUps :=
      patchField updates.exerciseStatsPushUps normalizeCounterPatch current.exerciseStatsPushUps
    exerciseStatsSitUps :=
      patchField updates.exerciseStatsSitUps normalizeCounterPatch current.exerciseStatsSitUps
    exerciseStatsSquats :=
      patchField updates.exerciseStatsSquats normalizeCounterPatch current.exerciseStatsSquats }

/-- `computeNextState(currentState, updates)` — a non-object `updates`
(modelled by `none`) returns a copy of the current state without touching
the invariants; an object (`some patch`) is merged field-wise and then
the invariants are re-enforced globally. -/
def computeNextState (currentState : State) (updates : Option Patch) : State :=
  match updates with
  | none => currentState
  | some u => enforceStateInvariants (applyUpdates currentState u)

/-! `diffState`. -/

/-- `areStringArraysEqual(a, b)` — length check plus element-wise
comparison. -/
def areStringArraysEqual (a b : List String) : Bool :=
  if a.length ≠ b.length then false
  else (List.zip a b).all (fun p => p.1 = p.2)

/-- A delta object: for every key, `none` means the key is absent from
the delta, `some v` that the key changed and carries the new value. -/
structure StateDelta where
  currentTask : Option String := none
  isInFlow : Option Bool := none
  intentGateEnabled : Option Bool := none
  breakReminderEnabled : Option Bool := none
  mindfulnessReminderEnabled : Option Bool := none
  hasSeenOnboarding : Option Bool := none
  distractingSites : Option (List String) := none
  deepWorkBlockedSites : Option (List String) := none
  reminderStartTime : Option (Option ℚ) := none
  reminderInterval : Option (Option ℚ) := none
  reminderExpectedEndTime : Option (Option ℚ) := none
  mindfulnessLastShownAt : Option (Option ℚ) := none
  exerciseReminderEnabled : Option Bool := none
  exerciseIntervalMs : Option (Option ℚ) := none
  exerciseExpectedAt : Option (Option ℚ) := none
  exerciseRemainingMs : Option (Option ℚ) := none
  exerciseStatsDate : Option (Option String) := none
  exerciseStatsPushUps : Option ℚ := none
  exerciseStatsSitUps : Option ℚ := none
  exerciseStatsSquats : Option ℚ := none
deriving DecidableEq

/-- The empty delta (`{}`; `Object.keys(delta).length === 0`). -/
def emptyDelta : StateDelta := {}

/-- One non-array key of the `diffState` loop:
`if (prevValue !== nextValue) delta[key] = nextValue`. -/
def diffField {α : Type} [DecidableEq α] (prevValue nextValue : α) : Option α :=
  if prevValue = nextValue then none else some nextValue

/-- One array-valued key of the `diffState` loop, compared with
`areStringArraysEqual` instead of reference identity. -/
def diffArrayField (prevValue nextValue : List String) : Option (List String) :=
  if areStringArraysEqual prevValue nextValue then none else some nextValue

/-- `diffState(prevState, nextState)` — iterate the keys of `nextState`
and keep exactly the changed ones (arrays compared by value). -/
def diffState (prevState nextState : State) : StateDelta :=
  { currentTask := diffField prevState.currentTask nextState.currentTask
    isInFlow := diffField prevState.isInFlow nextState.isInFlow
    intentGateEnabled := diffField prevState.intentGateEnabled nextState.intentGateEnabled
    breakReminderEnabled :=
      diffField prevState.breakReminderEnabled nextState.breakReminderEnabled
    mindfulnessReminderEnabled :=
      diffField prevState.mindfulnessReminderEnabled nextState.mindfulnessReminderEnabled
    hasSeenOnboarding := diffField prevState.hasSeenOnboarding nextState.hasSeenOnboarding
    distractingSites := diffArrayField prevState.distractingSites nextState.distractingSites
    deepWorkBlockedSites :=
      diffArrayField prevState.deepWorkBlockedSites nextState.deepWorkBlockedSites
    reminderStartTime := diffField prevState.reminderStartTime nextState.reminderStartTime
    reminderInterval := diffField prevState.reminderInterval nextState.reminderInterval
    reminderExpectedEndTime :=
      diffField prevState.reminderExpectedEndTime nextState.reminderExpectedEndTime
    mindfulnessLastShownAt :=
      diffField prevState.mindfulnessLastShownAt nextState.mindfulnessLastShownAt
    exerciseReminderEnabled :=
      diffField prevState.exerciseReminderEnabled nextState.exerciseReminderEnabled
    exerciseIntervalMs := diffField prevState.exerciseIntervalMs nextState.exerciseIntervalMs
    exerciseExpectedAt := diffField prevState.exerciseExpectedAt nextState.exerciseExpectedAt
    exerciseRemainingMs := diffField prevState.exerciseRemainingMs nextState.exerciseRemainingMs
    exerciseStatsDate := diffField prevState.exerciseStatsDate nextState.exerciseStatsDate
    exerciseStatsPushUps := diffField prevState.exerciseStatsPushUps nextState.exerciseStatsPushUps
    exerciseStatsSitUps := diffField prevState.exerciseStatsSitUps nextState.exerciseStatsSitUps
    exerciseStatsSquats := diffField prevState.exerciseStatsSquats nextState.exerciseStatsSquats }

/-! Access contract (`state_contract.js`). -/

/-- `STATE_KEYS = Object.keys(DEFAULT_STATE)` in insertion order. -/
def STATE_KEYS : List String :=
  ["currentTask", "isInFlow", "intentGateEnabled", "breakReminderEnabled",
   "mindfulnessReminderEnabled", "hasSeenOnboarding", "distractingSites",
   "deepWorkBlockedSites", "reminderStartTime", "reminderInterval",
   "reminderExpectedEndTime", "mindfulnessLastShownAt",
   "exerciseReminderEnabled", "exerciseIntervalMs", "exerciseExpectedAt",
   "exerciseRemainingMs", "exerciseStatsDate", "exerciseStatsPushUps",
   "exerciseStatsSitUps", "exerciseStatsSquats"]

/-- `UI_ALLOWED_UPDATE_KEYS` — the keys the UI may mutate. -/
def UI_ALLOWED_UPDATE_KEYS : List String :=
  ["intentGateEnabled", "breakReminderEnabled", "mindfulnessReminderEnabled",
   "hasSeenOnboarding", "currentTask", "isInFlow", "distractingSites",
   "deepWorkBlockedSites", "exerciseReminderEnabled"]

/-- `UNTRUSTED_STATE_KEYS` — the minimal subset exposed to untrusted
senders. -/
def UNTRUSTED_STATE_KEYS : List String := ["isInFlow"]

/-! State runtime (`background_state.js`). -/

/-- Reading one state field by key name, as the `getState` handler does
with `state[k]`, rendered back into a JavaScript value.  An unknown key
reads `undefined` (`JVal.other`). -/
def stateGet (s : State) (key : String) : JVal :=
  if key = "currentTask" then .string s.currentTask
  else if key = "isInFlow" then .boolean s.isInFlow
  else if key = "intentGateEnabled" then .boolean s.intentGateEnabled
  else if key = "breakReminderEnabled" then .boolean s.breakReminderEnabled
  else if key = "mindfulnessReminderEnabled" then .boolean s.mindfulnessReminderEnabled
  else if key = "hasSeenOnboarding" then .boolean s.hasSeenOnboarding
  else if key = "distractingSites" then .array (s.distractingSites.map .string)
  else if key = "deepWorkBlockedSites" then .array (s.deepWorkBlockedSites.map .string)
  else if key = "reminderStartTime" then jnumOrNull s.reminderStartTime
  else if key = "reminderInterval" then jnumOrNull s.reminderInterval
  else if key = "reminderExpectedEndTime" then jnumOrNull s.reminderExpectedEndTime
  else if key = "mindfulnessLastShownAt" then jnumOrNull s.mindfulnessLastShownAt
  else if key = "exerciseReminderEnabled" then .boolean s.exerciseReminderEnabled
  else if key = "exerciseIntervalMs" then jnumOrNull s.exerciseIntervalMs
  else if key = "exerciseExpectedAt" then jnumOrNull s.exerciseExpectedAt
  else if key = "exerciseRemainingMs" then jnumOrNull s.exerciseRemainingMs
  else if key = "exerciseStatsDate" then
    match s.exerciseStatsDate with
    | none => .null
    | some d => .string d
  else if key = "exerciseStatsPushUps" then .number (.fin s.exerciseStatsPushUps)
  else if key = "exerciseStatsSitUps" then .number (.fin s.exerciseStatsSitUps)
  else if key = "exerciseStatsSquats" then .number (.fin s.exerciseStatsSquats)
  else .other
where
  /-- A nullable number field rendered as a JavaScript value. -/
  jnumOrNull : Option ℚ → JVal
    | none => .null
    | some q => .number (.fin q)

/-- The `getState` request shape: `message.keys` and `message.key` are
arbitrary JavaScript values (absent fields read `undefined`). -/
structure GetStateMsg where
  keys : JVal := .other
  key : JVal := .other

/-- The `getState` branch of the `onMessage` listener in
`setupStateListeners`: select the allowlist by sender trust, then answer
either the named subset, a single key, or the default read (full state
for trusted pages, the untrusted subset otherwise).  The response object
is modelled as the association list of the keys written into it, in
write order. -/
def handleGetStateMessage (s : State) (isTrusted : Bool) (msg : GetStateMsg) :
    List (String × JVal) :=
  let allowedKeys := if isTrusted then STATE_KEYS else UNTRUSTED_STATE_KEYS
  match msg.keys with
  | .array ks =>
      ks.foldl
        (fun subset k =>
          match k with
          | .string key =>
              if allowedKeys.contains key then subset ++ [(key, stateGet s key)] else subset
          | _ => subset)
        []
  | _ =>
    match msg.key with
    | .string key =>
        if allowedKeys.contains key then [(key, stateGet s key)] else []
    | _ =>
      if isTrusted then STATE_KEYS.map (fun k => (k, stateGet s k))
      else allowedKeys.map (fun k => (k, stateGet s k))

/-- `filterPayloadKeys(payload, allowedKeys)` — keep exactly the keys on
the allowlist.  The payload object is modelled as the association list of
its own enumerable keys. -/
def filterPayloadKeys (payload : List (String × JVal)) (allowedKeys : List String) :
    List (String × JVal) :=
  payload.filter (fun kv => allowedKeys.contains kv.1)

/-- Reading one known schema key out of a payload object (`filtered[key]`
after the merge loop); `none` when the key is absent. -/
def payloadLookup (payload : List (String × JVal)) (key : String) : Option JVal :=
  (payload.find? (fun kv => kv.1 = key)).map Prod.snd

/-- The patch that `computeNextState` sees for a given payload object:
for each schema key, present iff the key is present in the payload. -/
def toPatch (payload : List (String × JVal)) : Patch :=
  { currentTask := payloadLookup payload "currentTask"
    isInFlow := payloadLookup payload "isInFlow"
    intentGateEnabled := payloadLookup payload "intentGateEnabled"
    breakReminderEnabled := payloadLookup payload "breakReminderEnabled"
    mindfulnessReminderEnabled := payloadLookup payload "mindfulnessReminderEnabled"
    hasSeenOnboarding := payloadLookup payload "hasSeenOnboarding"
    distractingSites := payloadLookup payload "distractingSites"
    deepWorkBlockedSites := payloadLookup payload "deepWorkBlockedSites"
    reminderStartTime := payloadLookup payload "reminderStartTime"
    reminderInterval := payloadLookup payload "reminderInterval"
    reminderExpectedEndTime := payloadLookup payload "reminderExpectedEndTime"
    mindfulnessLastShownAt := payloadLookup payload "mindfulnessLastShownAt"
    exerciseReminderEnabled := payloadLookup payload "exerciseReminderEnabled"
    exerciseIntervalMs := payloadLookup payload "exerciseIntervalMs"
    exerciseExpectedAt := payloadLookup payload "exerciseExpectedAt"
    exerciseRemainingMs := payloadLookup payload "exerciseRemainingMs"
    exerciseStatsDate := payloadLookup payload "exerciseStatsDate"
    exerciseStatsPushUps := payloadLookup payload "exerciseStatsPushUps"
    exerciseStatsSitUps := payloadLookup payload "exerciseStatsSitUps"
    exerciseStatsSquats := payloadLookup payload "exerciseStatsSquats" }

/-- The `updateState` branch of the `onMessage` listener: reject a
non-object payload, reject an untrusted sender, drop non-allowlisted keys,
answer "No valid keys" (state untouched) when nothing remains, otherwise
run the remaining keys through `updateState` (i.e. `computeNextState`).
The result is the next authoritative state together with the
`{ success, error }` reply. -/
def handleUpdateStateMessage (s : State) (isTrusted : Bool)
    (payload : Option (List (String × JVal))) : State × Bool × Option String :=
  match payload with
  | none => (s, false, some "Invalid payload")
  | some pl =>
    if isTrusted = false then (s, false, some "Forbidden")
    else
      let filteredPayload := filterPayloadKeys pl UI_ALLOWED_UPDATE_KEYS
      if filteredPayload.length = 0 then (s, false, some "No valid keys")
      else (computeNextState s (some (toPatch filteredPayload)), true, none)

/-- The serialized mutation chain of `updateState`: queued patches are
applied one at a time, strictly in FIFO order (the single
`updateChain = updateChain.then(...)` promise chain admits at most one
mutation in flight).  Each mutation computes the next state and its
delta; an empty delta performs no state write and no broadcast, a
non-empty delta installs the next state and broadcasts once.  Returns the
final state and the number of delta broadcasts performed. -/
def runUpdateChain (s : State) : List Patch → State × ℕ
  | [] => (s, 0)
  | p :: rest =>
    if diffState s (computeNextState s (some p)) = emptyDelta then
      runUpdateChain s rest
    else
      ((runUpdateChain (computeNextState s (some p)) rest).1,
       (runUpdateChain (computeNextState s (some p)) rest).2 + 1)

/-! Hostname matching (`distraction_matcher.js`) and the intent-gate
match (`intent_gate_helpers.js`). -/

/-- `normalizeHostnameForComparison(hostname)` — trim, lowercase, strip
one leading `www.`. -/
def normalizeHostnameForComparison (hostname : String) : String :=
  stripWwwDot (jsToLower (jsTrim hostname))

/-- Model of the host platform's `new URL(url).hostname` for an
`http(s)://` URL: the authority is what sits between the scheme and the
first `/`, `?` or `#`; the host is the authority with any `userinfo@`
prefix and any `:port` suffix removed, lowercased (WHATWG URL hostnames
are reported lowercase). -/
def urlHostname (url : String) : String :=
  let afterScheme :=
    if jsStartsWith url "http://" then jsDrop url 7 else jsDrop url 8
  let authority :=
    takeBeforeChar (takeBeforeChar (takeBeforeChar afterScheme '/') '?') '#'
  let hostPort : String := ⟨(authority.data.reverse.takeWhile (fun ch => ch ≠ '@')).reverse⟩
  jsToLower (takeBeforeChar hostPort ':')

/-- `getHostnameFromUrl(url)` — only `http://`/`https://` URLs yield a
hostname; everything else (and any parse failure) yields `""`. -/
def getHostnameFromUrl (url : String) : String :=
  if jsStartsWith url "http://" || jsStartsWith url "https://" then
    normalizeHostnameForComparison (urlHostname url)
  else ""

/-- `isHostnameInList(hostname, sites)` — exact match or subdomain match
(`host.endsWith('.' + site)`) against each normalized list entry. -/
def isHostnameInList (hostname : String) (sites : List String) : Bool :=
  let host := normalizeHostnameForComparison hostname
  if host = "" then false
  else
    sites.any (fun site =>
      let s := normalizeHostnameForComparison site
      if s = "" then false
      else host = s || jsEndsWith host ("." ++ s))

/-- The result record of `getIntentGateMatch`. -/
structure GateMatch where
  hostname : String
  shouldGate : Bool
  isDeepWorkBlocked : Bool
deriving DecidableEq

/-- `getIntentGateMatch(url, state)` — standard distraction match always
applies; the deep-work blocked list applies only while in flow. -/
def getIntentGateMatch (url : String) (state : State) : GateMatch :=
  let hostname := getHostnameFromUrl url
  if hostname = "" then ⟨"", false, false⟩
  else
    let isStandardDistracting := isHostnameInList hostname state.distractingSites
    let isDeepWorkBlocked := state.isInFlow && isHostnameInList hostname state.deepWorkBlockedSites
    ⟨hostname, isStandardDistracting || isDeepWorkBlocked, isDeepWorkBlocked⟩

/-! Basic lemmas about the invariant engine. -/

/-- Normal form of `enforceStateValidity`: the net effect of the five
sequential correction steps, expressed field-wise. -/
theorem enforceStateValidity_eq (n : State) :
    enforceStateValidity n =
      { n with
        isInFlow := if n.currentTask = "" then false else n.isInFlow
        breakReminderEnabled :=
          if n.currentTask = "" ∨ n.isInFlow = false then false else n.breakReminderEnabled
        reminderStartTime :=
          if n.currentTask = "" ∨ n.isInFlow = false then none else n.reminderStartTime
        reminderInterval :=
          if n.currentTask = "" ∨ n.isInFlow = false then none else n.reminderInterval
        reminderExpectedEndTime :=
          if n.currentTask = "" ∨ n.isInFlow = false then none else n.reminderExpectedEndTime
        exerciseIntervalMs :=
          if n.exerciseReminderEnabled = true ∧ n.exerciseIntervalMs = none then
            some EXERCISE_DEFAULT_INTERVAL_MS
          else n.exerciseIntervalMs
        exerciseStatsPushUps := max 0 n.exerciseStatsPushUps
        exerciseStatsSitUps := max 0 n.exerciseStatsSitUps
        exerciseStatsSquats := max 0 n.exerciseStatsSquats } := by
  cases n
  unfold enforceStateValidity clampExerciseStats enforceExerciseIntervalDefault
    enforceNoFlowClearsTimer enforceFlowRequiresTask enforceTaskIsString
  split_ifs <;> simp_all

/-- A field normalizer, at a fixed input value, either ignores its
fallback entirely or is the identity on the fallback. -/
def ConstOrId {α : Type} (N : JVal → α → α) (v : JVal) : Prop :=
  (∃ k, ∀ c, N v c = k) ∨ (∀ c, N v c = c)

theorem normalizeBoolean_constOrId (v : JVal) : ConstOrId normalizeBoolean v := by
  cases v <;> simp [ConstOrId, normalizeBoolean]

theorem normalizeString_constOrId (v : JVal) : ConstOrId normalizeString v := by
  cases v <;> simp [ConstOrId, normalizeString]

theorem normalizeTask_constOrId (v : JVal) : ConstOrId normalizeTask v := by
  cases v <;> simp [ConstOrId, normalizeTask]

theorem normalizeNumberOrNull_constOrId (v : JVal) : ConstOrId normalizeNumberOrNull v := by
  cases v with
  | number m => cases m <;> simp [ConstOrId, normalizeNumberOrNull]
  | _ => simp [ConstOrId, normalizeNumberOrNull]

theorem normalizeIntervalMs_constOrId (v : JVal) : ConstOrId normalizeIntervalMs v := by
  cases v with
  | number m =>
      cases m with
      | fin q =>
          by_cases h : q < MIN_INTERVAL_MS ∨ q > MAX_INTERVAL_MS
          · exact Or.inr (fun c => by simp [normalizeIntervalMs, h])
          · exact Or.inl ⟨some q, fun c => by simp [normalizeIntervalMs, h]⟩
      | nan => simp [ConstOrId, normalizeIntervalMs]
      | inf => simp [ConstOrId, normalizeIntervalMs]
      | ninf => simp [ConstOrId, normalizeIntervalMs]
  | _ => simp [ConstOrId, normalizeIntervalMs]

theorem normalizeCounterPatch_constOrId (v : JVal) : ConstOrId normalizeCounterPatch v := by
  cases v with
  | number m => cases m <;> simp [ConstOrId, normalizeCounterPatch, normalizeNumberOrNull]
  | _ => simp [ConstOrId, normalizeCounterPatch, normalizeNumberOrNull]

theorem normalizeDomainList_constOrId (v : JVal) :
    ConstOrId (fun w cur => normalizeDomainList w cur MAX_SITE_LIST_ITEMS) v := by
  cases v <;> simp [ConstOrId, normalizeDomainList]

/-- Lift the dichotomy through `patchField` (an absent key is the
identity). -/
theorem patchField_constOrId {α : Type} {N : JVal → α → α}
    (hN : ∀ jv, ConstOrId N jv) (v : Option JVal) :
    (∃ k, ∀ c, patchField v N c = k) ∨ (∀ c, patchField v N c = c) := by
  cases v with
  | none => exact Or.inr (fun c => rfl)
  | some jv =>
      rcases hN jv with ⟨k, hk⟩ | hid
      · exact Or.inl ⟨k, fun c => hk c⟩
      · exact Or.inr (fun c => hid c)

/-- Re-resolving a patched field against its own previous resolution is a
no-op. -/
theorem patchField_idem {α : Type} {N : JVal → α → α}
    (hN : ∀ jv, ConstOrId N jv) (v : Option JVal) (c : α) :
    patchField v N (patchField v N c) = patchField v N c := by
  rcases patchField_constOrId hN v with ⟨k, hk⟩ | hid
  · rw [hk, hk]
  · rw [hid, hid]

end MaiZone

namespace MaiZone

/-- Applying the same patch a second time on top of its own
invariant-corrected result changes nothing. -/
theorem applyUpdates_enforce_idem (s : State) (p : Patch) :
    enforceStateValidity (applyUpdates (enforceStateValidity (applyUpdates s p)) p)
      = enforceStateValidity (applyUpdates s p) := by
  apply State.ext <;> simp only [enforceStateValidity_eq, applyUpdates]
  -- currentTask
  · exact patchField_idem normalizeTask_constOrId _ _
  -- isInFlow
  · rw [patchField_idem normalizeTask_constOrId]
    by_cases hT : patchField p.currentTask normalizeTask s.currentTask = ""
    · simp [hT]
    · simp only [if_neg hT]
      exact patchField_idem normalizeBoolean_constOrId _ _
  -- intentGateEnabled
  · exact patchField_idem normalizeBoolean_constOrId _ _
  -- breakReminderEnabled
  · rw [patchField_idem normalizeTask_constOrId]
    by_cases hT : patchField p.currentTask normalizeTask s.currentTask = ""
    · simp [hT]
    · simp only [if_neg hT]
      simp only [hT, false_or]
      rw [patchField_idem normalizeBoolean_constOrId]
      by_cases hF : patchField p.isInFlow normalizeBoolean s.isInFlow = false
      · simp [hF]
      · simp only [if_neg hF, hF, if_false]
        exact patchField_idem normalizeBoolean_constOrId _ _
  -- mindfulnessReminderEnabled
  · exact patchField_idem normalizeBoolean_constOrId _ _
  -- hasSeenOnboarding
  · exact patchField_idem normalizeBoolean_constOrId _ _
  -- distractingSites
  · exact patchField_idem normalizeDomainList_constOrId _ _
  -- deepWorkBlockedSites
  · exact patchField_idem normalizeDomainList_constOrId _ _
  -- reminderStartTime
  · rw [patchField_idem normalizeTask_constOrId]
    by_cases hT : patchField p.currentTask normalizeTask s.currentTask = ""
    · simp [hT]
    · simp only [if_neg hT]
      simp only [hT, false_or]
      rw [patchField_idem normalizeBoolean_constOrId]
      by_cases hF : patchField p.isInFlow normalizeBoolean s.isInFlow = false
      · simp [hF]
      · simp only [if_neg hF, hF, if_false]
        exact patchField_idem normalizeNumberOrNull_constOrId _ _
  -- reminderInterval
  · rw [patchField_idem normalizeTask_constOrId]
    by_cases hT : patchField p.currentTask normalizeTask s.currentTask = ""
    · simp [hT]
    · simp only [if_neg hT]
      simp only [hT, false_or]
      rw [patchField_idem normalizeBoolean_constOrId]
      by_cases hF : patchField p.isInFlow normalizeBoolean s.isInFlow = false
      · simp [hF]
      · simp only [if_neg hF, hF, if_false]
        exact patchField_idem normalizeIntervalMs_constOrId _ _
  -- reminderExpectedEndTime
  · rw [patchField_idem normalizeTask_constOrId]
    by_cases hT : patchField p.currentTask normalizeTask s.currentTask = ""
    · simp [hT]
    · simp only [if_neg hT]
      simp only [hT, false_or]
      rw [patchField_idem normalizeBoolean_constOrId]
      by_cases hF : patchField p.isInFlow normalizeBoolean s.isInFlow = false
      · simp [hF]
      · simp only [if_neg hF, hF, if_false]
        exact patchField_idem normalizeNumberOrNull_constOrId _ _
  -- mindfulnessLastShownAt
  · exact patchField_idem normalizeNumberOrNull_constOrId _ _
  -- exerciseReminderEnabled
  · exact patchField_idem normalizeBoolean_constOrId _ _
  -- exerciseIntervalMs
  · rw [patchField_idem normalizeBoolean_constOrId]
    by_cases hG : patchField p.exerciseReminderEnabled normalizeBoolean s.exerciseReminderEnabled
        = true
    · simp only [hG, true_and]
      by_cases hI : patchField p.exerciseIntervalMs normalizeIntervalMs s.exerciseIntervalMs
          = none
      · simp only [hI, if_pos rfl]
        rcases patchField_constOrId normalizeIntervalMs_constOrId p.exerciseIntervalMs with
          ⟨k, hk⟩ | hid
        · rw [hk] at hI
          simp [hk, hI]
        · simp [hid]
      · simp only [if_neg hI]
        rw [patchField_idem normalizeIntervalMs_constOrId]
        simp [hI]
    · simp only [hG, false_and, if_false]
      exact patchField_idem normalizeIntervalMs_constOrId _ _
  -- exerciseExpectedAt
  · exact patchField_idem normalizeNumberOrNull_constOrId _ _
  -- exerciseRemainingMs
  · exact patchField_idem normalizeNumberOrNull_constOrId _ _
  -- exerciseStatsDate
  · exact patchField_idem normalizeString_constOrId _ _
  -- exerciseStatsPushUps
  · rcases patchField_constOrId normalizeCounterPatch_constOrId p.exerciseStatsPushUps with
      ⟨k, hk⟩ | hid
    · simp [hk]
    · simp only [hid]
      exact max_eq_right (le_max_left 0 _)
  -- exerciseStatsSitUps
  · rcases patchField_constOrId normalizeCounterPatch_constOrId p.exerciseStatsSitUps with
      ⟨k, hk⟩ | hid
    · simp [hk]
    · simp only [hid]
      exact max_eq_right (le_max_left 0 _)
  -- exerciseStatsSquats
  · rcases patchField_constOrId normalizeCounterPatch_constOrId p.exerciseStatsSquats with
      ⟨k, hk⟩ | hid
    · simp [hk]
    · simp only [hid]
      exact max_eq_right (le_max_left 0 _)

/-! Lemmas about `diffState`. -/

/-- `areStringArraysEqual` decides value equality of the two lists. -/
theorem areStringArraysEqual_iff (a b : List String) :
    areStringArraysEqual a b = true ↔ a = b := by
  induction a generalizing b with
  | nil => cases b <;> simp [areStringArraysEqual]
  | cons x xs ih =>
      cases b with
      | nil => simp [areStringArraysEqual]
      | cons y ys =>
          have hrec := ih ys
          by_cases hl : xs.length = ys.length
          · simp [areStringArraysEqual, hl] at hrec ⊢
            tauto
          · simp only [areStringArraysEqual, List.length_cons] at hrec ⊢
            have hne : ¬(xs.length + 1 = ys.length + 1) := by omega
            simp [hne]
            intro hxy hxs
            exact hl (by rw [hxs])

theorem areStringArraysEqual_self (a : List String) : areStringArraysEqual a a = true :=
  (areStringArraysEqual_iff a a).mpr rfl

theorem diffField_self {α : Type} [DecidableEq α] (x : α) : diffField x x = none := by
  simp [diffField]

theorem diffArrayField_self (a : List String) : diffArrayField a a = none := by
  simp [diffArrayField, areStringArraysEqual_self]

/-- Diffing a state against itself yields the empty delta. -/
theorem diffState_self (s : State) : diffState s s = emptyDelta := by
  simp [diffState, diffField_self, diffArrayField_self, emptyDelta]

/-- The empty patch resolves every field to its current value. -/
theorem applyUpdates_empty (s : State) : applyUpdates s emptyPatch = s := rfl

/-! Invariant lemmas about `enforceStateValidity`. -/

/-- The flow/timer validity invariant of the spec, minus the (false)
"in-flow implies non-null timer fields" conjunct: in-flow requires a
non-empty task, and out of flow the three focus-session timer fields are
null and the break-reminder enable flag is off. -/
def flowTimerInvariant (s : State) : Bool :=
  (!s.isInFlow || decide (s.currentTask ≠ "")) &&
  (s.isInFlow ||
    (decide (s.reminderStartTime = none) && decide (s.reminderInterval = none) &&
     decide (s.reminderExpectedEndTime = none) && !s.breakReminderEnabled))

theorem enforce_flowTimerInvariant (n : State) :
    flowTimerInvariant (enforceStateValidity n) = true := by
  rw [enforceStateValidity_eq]
  by_cases hT : n.currentTask = "" <;> by_cases hF : n.isInFlow <;>
    simp [flowTimerInvariant, hT, hF]

theorem enforce_counters_nonneg (n : State) :
    0 ≤ (enforceStateValidity n).exerciseStatsPushUps ∧
    0 ≤ (enforceStateValidity n).exerciseStatsSitUps ∧
    0 ≤ (enforceStateValidity n).exerciseStatsSquats := by
  rw [enforceStateValidity_eq]
  exact ⟨le_max_left 0 _, le_max_left 0 _, le_max_left 0 _⟩

/-! Lemmas about `normalizeDomainList`. -/

theorem candidateHostname_valid {v : JVal} {h : String}
    (hc : candidateHostname v = some h) : isValidHostname h = true := by
  cases v with
  | string s =>
      simp only [candidateHostname] at hc
      split_ifs at hc with h1 h2
      rcases Option.some_injective _ hc with rfl
      simpa using h2
  | null => simp [candidateHostname] at hc
  | boolean b => simp [candidateHostname] at hc
  | number n => simp [candidateHostname] at hc
  | array xs => simp [candidateHostname] at hc
  | other => simp [candidateHostname] at hc

theorem collectDomains_valid (m : ℕ) (xs : List JVal) :
    ∀ out, (∀ h ∈ out, isValidHostname h = true) →
      ∀ h ∈ collectDomains m xs out, isValidHostname h = true := by
  induction xs with
  | nil => intro out hout; simpa [collectDomains] using hout
  | cons v rest ih =>
      intro out hout
      cases hc : candidateHostname v with
      | none => simpa only [collectDomains, hc] using ih out hout
      | some hn =>
          have hvalid := candidateHostname_valid hc
          have hout' : ∀ h ∈ out ++ [hn], isValidHostname h = true := by
            intro h hmem
            rcases List.mem_append.mp hmem with hmem | hmem
            · exact hout h hmem
            · rcases List.mem_singleton.mp hmem with rfl
              exact hvalid
          simp only [collectDomains, hc]
          split_ifs with h1 h2
          · exact ih out hout
          · exact hout'
          · exact ih _ hout'

theorem collectDomains_nodup (m : ℕ) (xs : List JVal) :
    ∀ out, out.Nodup → (collectDomains m xs out).Nodup := by
  induction xs with
  | nil => intro out hout; simpa [collectDomains] using hout
  | cons v rest ih =>
      intro out hout
      cases hc : candidateHostname v with
      | none => simpa only [collectDomains, hc] using ih out hout
      | some hn =>
          simp only [collectDomains, hc]
          split_ifs with h1 h2
          · exact ih out hout
          · have hni : hn ∉ out := by simpa using h1
            simp [List.nodup_append, hout, hni]
          · refine ih _ ?_
            have hni : hn ∉ out := by simpa using h1
            simp [List.nodup_append, hout, hni]

theorem collectDomains_length (m : ℕ) (xs : List JVal) :
    ∀ out, out.length < m → (collectDomains m xs out).length ≤ m := by
  induction xs with
  | nil => intro out hout; simp only [collectDomains]; omega
  | cons v rest ih =>
      intro out hout
      cases hc : candidateHostname v with
      | none =>
          simp only [collectDomains, hc]
          exact ih out hout
      | some hn =>
          simp only [collectDomains, hc]
          split_ifs with h1 h2
          · exact ih out hout
          · simp only [List.length_append, List.length_singleton]
            omega
          · refine ih _ ?_
            simp only [List.length_append, List.length_singleton] at h2 ⊢
            omega

theorem normalizeDomainList_array_valid (xs : List JVal) (fb : List String) :
    ∀ h ∈ normalizeDomainList (.array xs) fb MAX_SITE_LIST_ITEMS, isValidHostname h = true := by
  intro h hmem
  simp only [normalizeDomainList] at hmem
  have hp := List.perm_insertionSort (fun a b : String => a ≤ b)
    (collectDomains MAX_SITE_LIST_ITEMS xs [])
  exact collectDomains_valid MAX_SITE_LIST_ITEMS xs [] (by simp) h (hp.mem_iff.mp hmem)

theorem normalizeDomainList_array_nodup (xs : List JVal) (fb : List String) :
    (normalizeDomainList (.array xs) fb MAX_SITE_LIST_ITEMS).Nodup := by
  simp only [normalizeDomainList]
  have hp := List.perm_insertionSort (fun a b : String => a ≤ b)
    (collectDomains MAX_SITE_LIST_ITEMS xs [])
  exact (collectDomains_nodup MAX_SITE_LIST_ITEMS xs [] (by simp)).perm hp.symm

theorem normalizeDomainList_array_sorted (xs : List JVal) (fb : List String) :
    List.Sorted (fun a b : String => a ≤ b)
      (normalizeDomainList (.array xs) fb MAX_SITE_LIST_ITEMS) := by
  simp only [normalizeDomainList]
  exact List.sorted_insertionSort (fun a b : String => a ≤ b) _

theorem normalizeDomainList_array_length (xs : List JVal) (fb : List String) :
    (normalizeDomainList (.array xs) fb MAX_SITE_LIST_ITEMS).length ≤ MAX_SITE_LIST_ITEMS := by
  simp only [normalizeDomainList]
  have hp := List.perm_insertionSort (fun a b : String => a ≤ b)
    (collectDomains MAX_SITE_LIST_ITEMS xs [])
  rw [hp.length_eq]
  exact collectDomains_length MAX_SITE_LIST_ITEMS xs [] (by norm_num [MAX_SITE_LIST_ITEMS])

/-! Claim C1 — flow/timer invariant. -/

/-- The patch `{ currentTask: "Test task", isInFlow: true }`. -/
def patchEnterFlow : Patch :=
  { currentTask := some (JVal.string "Test task"), isInFlow := some (JVal.boolean true) }

/-- C1 counterexample: starting a flow session through `computeNextState`
with only a task and the in-flow flag leaves all three focus-session
timer fields `null`, so "isInFlow implies the focus-session timer fields
are non-null" is false on the code. -/
theorem claim_C1_counterexample :
    (computeNextState getDefaultState (some patchEnterFlow)).isInFlow = true ∧
    (computeNextState getDefaultState (some patchEnterFlow)).reminderStartTime = none ∧
    (computeNextState getDefaultState (some patchEnterFlow)).reminderInterval = none ∧
    (computeNextState getDefaultState (some patchEnterFlow)).reminderExpectedEndTime = none := by
  refine ⟨?_, ?_, ?_, ?_⟩ <;> decide

/-- C1 amended: after every transition (`sanitizeStoredState` on any
stored record, `computeNextState` on any state and object patch), in-flow
implies a non-empty task, and not-in-flow implies the three focus-session
timer fields are null and `breakReminderEnabled` is false.  (In-flow does
not imply the timer fields are non-null.) -/
theorem claim_C1_amended (raw : Option RawStored) (s : State) (p : Patch) :
    flowTimerInvariant (sanitizeStoredState raw) = true ∧
    flowTimerInvariant (computeNextState s (some p)) = true :=
  ⟨enforce_flowTimerInvariant _, enforce_flowTimerInvariant _⟩

/-! Claim C3 — idempotence of `computeNextState`. -/

/-- C3: applying `computeNextState` twice with the same patch yields the
same state as applying it once, and the diff of the second application
against the first is empty. -/
theorem claim_C3_idempotent (s : State) (p : Option Patch) :
    computeNextState (computeNextState s p) p = computeNextState s p ∧
    diffState (computeNextState s p) (computeNextState (computeNextState s p) p)
      = emptyDelta := by
  cases p with
  | none => exact ⟨rfl, diffState_self s⟩
  | some u =>
      have h : computeNextState (computeNextState s (some u)) (some u)
          = computeNextState s (some u) := applyUpdates_enforce_idem s u
      exact ⟨h, by rw [h]; exact diffState_self (computeNextState s (some u))⟩

/-! Claim C9 — exercise counters. -/

/-- The rational 5/2, built without `Rat` arithmetic so that it evaluates
by kernel reduction. -/
def qFiveHalves : ℚ := Rat.mk' 5 2 (by decide) (by decide)

/-- C9 counterexample: the transitions accept any finite number for a
counter, so a counter need not be an integer — patching
`exerciseStatsPushUps` with 5/2 stores 5/2 (denominator 2). -/
theorem claim_C9_counterexample :
    (computeNextState getDefaultState
        (some { exerciseStatsPushUps :=
                  some (JVal.number (JNum.fin qFiveHalves)) })).exerciseStatsPushUps
      = qFiveHalves ∧ qFiveHalves.den ≠ 1 := by
  exact ⟨by decide, by decide⟩

/-- C9 amended: after every transition the three exercise counters are
non-negative (finite, but not necessarily integer); a non-finite stored
value falls back to the default 0 during `sanitizeStoredState` (in
`computeNextState` a non-finite patch value falls back to the current
counter before the clamp at 0). -/
theorem claim_C9_amended :
    (∀ raw : Option RawStored,
      0 ≤ (sanitizeStoredState raw).exerciseStatsPushUps ∧
      0 ≤ (sanitizeStoredState raw).exerciseStatsSitUps ∧
      0 ≤ (sanitizeStoredState raw).exerciseStatsSquats) ∧
    (∀ (s : State) (p : Patch),
      0 ≤ (computeNextState s (some p)).exerciseStatsPushUps ∧
      0 ≤ (computeNextState s (some p)).exerciseStatsSitUps ∧
      0 ≤ (computeNextState s (some p)).exerciseStatsSquats) ∧
    (∀ raw : RawStored, raw.exerciseStatsPushUps = JVal.number JNum.nan →
      (sanitizeStoredState (some raw)).exerciseStatsPushUps = 0) := by
  refine ⟨fun raw => enforce_counters_nonneg _,
          fun s p => enforce_counters_nonneg _,
          fun raw h => ?_⟩
  show (enforceStateValidity _).exerciseStatsPushUps = 0
  rw [enforceStateValidity_eq]
  show max 0 ((normalizeNumberOrNull raw.exerciseStatsPushUps
      (some getDefaultState.exerciseStatsPushUps)).getD getDefaultState.exerciseStatsPushUps) = 0
  rw [h]
  decide

/-- C9 witness for the non-finite fallback conjunct: a stored `NaN`
push-up counter sanitizes to 0. -/
theorem claim_C9_witness :
    (sanitizeStoredState
        (some { exerciseStatsPushUps := JVal.number JNum.nan })).exerciseStatsPushUps = 0 :=
  claim_C9_amended.2.2 { exerciseStatsPushUps := JVal.number JNum.nan } rfl

/-! Claim C10 — unknown patches are no-ops. -/

/-- C10: on an invariant-satisfying state (a fixpoint of
`enforceStateValidity`), `computeNextState` with a non-object update or
with an object none of whose keys is a schema field returns the state
unchanged, with an empty diff.  (Unknown keys of an update object are
never read by `computeNextState`, so such an object is exactly
`emptyPatch`.) -/
theorem claim_C10_unknown_patch_noop (s : State) (h : enforceStateValidity s = s) :
    computeNextState s none = s ∧
    diffState s (computeNextState s none) = emptyDelta ∧
    computeNextState s (some emptyPatch) = s ∧
    diffState s (computeNextState s (some emptyPatch)) = emptyDelta := by
  have h2 : computeNextState s (some emptyPatch) = s := by
    show enforceStateValidity (applyUpdates s emptyPatch) = s
    rw [applyUpdates_empty]
    exact h
  exact ⟨rfl, diffState_self s, h2, by rw [h2]; exact diffState_self s⟩

/-- C10 witness: the sanitized default state is a fixpoint of the
invariant engine and is left untouched by an unknown-keys update. -/
theorem claim_C10_witness :
    computeNextState (sanitizeStoredState none) none = sanitizeStoredState none ∧
    diffState (sanitizeStoredState none) (computeNextState (sanitizeStoredState none) none)
      = emptyDelta ∧
    computeNextState (sanitizeStoredState none) (some emptyPatch) = sanitizeStoredState none ∧
    diffState (sanitizeStoredState none)
      (computeNextState (sanitizeStoredState none) (some emptyPatch)) = emptyDelta :=
  claim_C10_unknown_patch_noop (sanitizeStoredState none) (by decide)

/-! Claim C2 — serialized FIFO mutation chain. -/

/-- The update `{ currentTask: "A" }`. -/
def patchTaskA : Patch := { currentTask := some (JVal.string "A") }

/-- The update `{ currentTask: "B" }`. -/
def patchTaskB : Patch := { currentTask := some (JVal.string "B") }

theorem computeNextState_patchTaskA_currentTask (s : State) :
    (computeNextState s (some patchTaskA)).currentTask = "A" := by
  show (enforceStateValidity (applyUpdates s patchTaskA)).currentTask = "A"
  rw [enforceStateValidity_eq]
  show normalizeTask (JVal.string "A") s.currentTask = "A"
  have h : normalizeTask (JVal.string "A") s.currentTask
      = normalizeTask (JVal.string "A") "" := rfl
  rw [h]
  decide

theorem computeNextState_patchTaskB_currentTask (s : State) :
    (computeNextState s (some patchTaskB)).currentTask = "B" := by
  show (enforceStateValidity (applyUpdates s patchTaskB)).currentTask = "B"
  rw [enforceStateValidity_eq]
  show normalizeTask (JVal.string "B") s.currentTask = "B"
  have h : normalizeTask (JVal.string "B") s.currentTask
      = normalizeTask (JVal.string "B") "" := rfl
  rw [h]
  decide

/-- A transition that changes `currentTask` produces a non-empty delta. -/
theorem diffState_ne_empty_of_task_change {s t : State} (h : s.currentTask ≠ t.currentTask) :
    diffState s t ≠ emptyDelta := by
  intro hcontra
  have hct := congrArg StateDelta.currentTask hcontra
  simp only [diffState, emptyDelta] at hct
  simp [diffField, h] at hct

/-- C2: two updates `{currentTask:"A"}` then `{currentTask:"B"}` queued
on the serialized update chain (modelled by `runUpdateChain`, which
applies queued patches one at a time in FIFO order) end in the state
obtained by applying A then B — so the final task is "B", nothing is
lost or interleaved — and perform exactly two delta broadcasts, provided
the starting task is not already "A". -/
theorem claim_C2_serialized_chain (s : State) (h : s.currentTask ≠ "A") :
    runUpdateChain s [patchTaskA, patchTaskB]
      = (computeNextState (computeNextState s (some patchTaskA)) (some patchTaskB), 2) ∧
    (runUpdateChain s [patchTaskA, patchTaskB]).1.currentTask = "B" := by
  have hA := computeNextState_patchTaskA_currentTask s
  have hB := computeNextState_patchTaskB_currentTask (computeNextState s (some patchTaskA))
  have hd1 : diffState s (computeNextState s (some patchTaskA)) ≠ emptyDelta :=
    diffState_ne_empty_of_task_change (by rw [hA]; exact h)
  have hd2 : diffState (computeNextState s (some patchTaskA))
      (computeNextState (computeNextState s (some patchTaskA)) (some patchTaskB))
        ≠ emptyDelta :=
    diffState_ne_empty_of_task_change (by rw [hA, hB]; decide)
  have hrun : runUpdateChain s [patchTaskA, patchTaskB]
      = (computeNextState (computeNextState s (some patchTaskA)) (some patchTaskB), 2) := by
    simp only [runUpdateChain, if_neg hd1, if_neg hd2]
  exact ⟨hrun, by rw [hrun]; exact hB⟩

/-- C2 witness: from the default state the chain ends with task "B" and
two broadcasts. -/
theorem claim_C2_witness :
    runUpdateChain getDefaultState [patchTaskA, patchTaskB]
      = (computeNextState (computeNextState getDefaultState (some patchTaskA))
          (some patchTaskB), 2) ∧
    (runUpdateChain getDefaultState [patchTaskA, patchTaskB]).1.currentTask = "B" :=
  claim_C2_serialized_chain getDefaultState (by decide)

/-! Claim C4 — site-list normalization. -/

/-- C4 counterexample: when the stored value is not an array (e.g. on a
fresh install), `normalizeDomainList` returns the fallback list as-is,
and the default distracting list of `constants.js` is not sorted
("youtube.com" precedes "facebook.com") — so "the result sorted" fails
for `sanitizeStoredState`. -/
theorem claim_C4_counterexample :
    (sanitizeStoredState none).distractingSites = DEFAULT_DISTRACTING_SITES ∧
    ¬ List.Sorted (fun a b : String => a ≤ b) (sanitizeStoredState none).distractingSites := by
  have hlist : (sanitizeStoredState none).distractingSites = DEFAULT_DISTRACTING_SITES := by
    decide
  refine ⟨hlist, ?_⟩
  rw [hlist]
  intro hsorted
  have hle : ("youtube.com" : String) ≤ "facebook.com" :=
    (List.sorted_cons.mp hsorted).1 "facebook.com" (by simp [DEFAULT_DISTRACTING_SITES])
  have hlt : ("facebook.com" : String) < "youtube.com" := by
    rw [String.lt_iff_toList_lt]
    decide
  exact absurd hle (not_le.mpr hlt)

/-- C4 amended: every entry produced by normalizing an *array* value
satisfies the hostname validity filter (charset `[a-z0-9.-]`, contains a
dot, no leading/trailing/doubled dots, at most 253 characters), the
result is deduplicated, sorted and capped at 200 entries, and the two
concrete examples of the spec hold; the normalized value is exactly what
`sanitizeStoredState` stores.  (When the incoming value is not an array
the fallback list — the default list on first run — is kept as-is, and
that default list is not sorted.) -/
theorem claim_C4_amended :
    (∀ (xs : List JVal) (fb : List String),
        (∀ h ∈ normalizeDomainList (.array xs) fb MAX_SITE_LIST_ITEMS,
            isValidHostname h = true) ∧
        (normalizeDomainList (.array xs) fb MAX_SITE_LIST_ITEMS).Nodup ∧
        List.Sorted (fun a b : String => a ≤ b)
          (normalizeDomainList (.array xs) fb MAX_SITE_LIST_ITEMS) ∧
        (normalizeDomainList (.array xs) fb MAX_SITE_LIST_ITEMS).length
          ≤ MAX_SITE_LIST_ITEMS) ∧
    (∀ (raw : RawStored) (xs : List JVal), raw.distractingSites = JVal.array xs →
        (sanitizeStoredState (some raw)).distractingSites
          = normalizeDomainList (.array xs) DEFAULT_DISTRACTING_SITES MAX_SITE_LIST_ITEMS) ∧
    normalizeDomainList (.array [.string "https://WWW.Example.com/path?x=1"]) []
      MAX_SITE_LIST_ITEMS = ["example.com"] ∧
    normalizeDomainList (.array [.string "not a host"]) [] MAX_SITE_LIST_ITEMS = [] := by
  refine ⟨fun xs fb => ⟨normalizeDomainList_array_valid xs fb,
      normalizeDomainList_array_nodup xs fb, normalizeDomainList_array_sorted xs fb,
      normalizeDomainList_array_length xs fb⟩, fun raw xs hraw => ?_, by decide, by decide⟩
  show (enforceStateValidity _).distractingSites = _
  rw [enforceStateValidity_eq]
  show normalizeDomainList raw.distractingSites DEFAULT_DISTRACTING_SITES MAX_SITE_LIST_ITEMS
    = normalizeDomainList (.array xs) DEFAULT_DISTRACTING_SITES MAX_SITE_LIST_ITEMS
  rw [hraw]

/-- C4 witness: the normalized entry of the concrete example passes the
hostname validity filter. -/
theorem claim_C4_witness : isValidHostname "example.com" = true :=
  (claim_C4_amended.1 [.string "https://WWW.Example.com/path?x=1"] []).1 "example.com"
    (by decide)

/-! Claim C5 — `diffState` compares by value. -/

theorem diffField_eq_none_iff {α : Type} [DecidableEq α] (a b : α) :
    diffField a b = none ↔ a = b := by
  unfold diffField
  split_ifs with hc <;> simp [hc]

theorem diffField_ne_none {α : Type} [DecidableEq α] {a b : α} (h : ¬a = b) :
    diffField a b = some b := by
  simp [diffField, h]

theorem diffArrayField_eq_none_iff (a b : List String) :
    diffArrayField a b = none ↔ a = b := by
  unfold diffArrayField
  split_ifs with hc
  · simp [(areStringArraysEqual_iff a b).mp hc]
  · simp
    intro hab
    exact hc ((areStringArraysEqual_iff a b).mpr hab)

theorem diffArrayField_ne_none {a b : List String} (h : ¬a = b) :
    diffArrayField a b = some b := by
  unfold diffArrayField
  split_ifs with hc
  · exact absurd ((areStringArraysEqual_iff a b).mp hc) h
  · rfl

/-- A delta is empty exactly when the two states agree on every field by
value. -/
theorem diffState_eq_empty_iff (prev next : State) :
    diffState prev next = emptyDelta ↔ prev = next := by
  constructor
  · intro h
    apply State.ext
    · exact (diffField_eq_none_iff _ _).mp (congrArg StateDelta.currentTask h)
    · exact (diffField_eq_none_iff _ _).mp (congrArg StateDelta.isInFlow h)
    · exact (diffField_eq_none_iff _ _).mp (congrArg StateDelta.intentGateEnabled h)
    · exact (diffField_eq_none_iff _ _).mp (congrArg StateDelta.breakReminderEnabled h)
    · exact (diffField_eq_none_iff _ _).mp (congrArg StateDelta.mindfulnessReminderEnabled h)
    · exact (diffField_eq_none_iff _ _).mp (congrArg StateDelta.hasSeenOnboarding h)
    · exact (diffArrayField_eq_none_iff _ _).mp (congrArg StateDelta.distractingSites h)
    · exact (diffArrayField_eq_none_iff _ _).mp (congrArg StateDelta.deepWorkBlockedSites h)
    · exact (diffField_eq_none_iff _ _).mp (congrArg StateDelta.reminderStartTime h)
    · exact (diffField_eq_none_iff _ _).mp (congrArg StateDelta.reminderInterval h)
    · exact (diffField_eq_none_iff _ _).mp (congrArg StateDelta.reminderExpectedEndTime h)
    · exact (diffField_eq_none_iff _ _).mp (congrArg StateDelta.mindfulnessLastShownAt h)
    · exact (diffField_eq_none_iff _ _).mp (congrArg StateDelta.exerciseReminderEnabled h)
    · exact (diffField_eq_none_iff _ _).mp (congrArg StateDelta.exerciseIntervalMs h)
    · exact (diffField_eq_none_iff _ _).mp (congrArg StateDelta.exerciseExpectedAt h)
    · exact (diffField_eq_none_iff _ _).mp (congrArg StateDelta.exerciseRemainingMs h)
    · exact (diffField_eq_none_iff _ _).mp (congrArg StateDelta.exerciseStatsDate h)
    · exact (diffField_eq_none_iff _ _).mp (congrArg StateDelta.exerciseStatsPushUps h)
    · exact (diffField_eq_none_iff _ _).mp (congrArg StateDelta.exerciseStatsSitUps h)
    · exact (diffField_eq_none_iff _ _).mp (congrArg StateDelta.exerciseStatsSquats h)
  · rintro rfl
    exact diffState_self prev

/-- C5: `diffState` keeps exactly the fields whose values differ —
empty delta iff the states are value-equal; a site-list key is absent
from the delta iff the two lists are element-wise equal, and present
with the new list otherwise; and two states whose site lists hold equal
elements (regardless of how the list values were constructed) diff to
the empty delta. -/
theorem claim_C5_diff_value_based :
    (∀ prev next : State, diffState prev next = emptyDelta ↔ prev = next) ∧
    (∀ prev next : State,
        (diffState prev next).distractingSites = none ↔
          prev.distractingSites = next.distractingSites) ∧
    (∀ prev next : State, prev.distractingSites ≠ next.distractingSites →
        (diffState prev next).distractingSites = some next.distractingSites) ∧
    diffState { getDefaultState with distractingSites := ["a.com"] }
        { getDefaultState with distractingSites := ["a" ++ ".com"] } = emptyDelta :=
  ⟨diffState_eq_empty_iff,
   fun prev next => diffArrayField_eq_none_iff prev.distractingSites next.distractingSites,
   fun prev next h => diffArrayField_ne_none h,
   (diffState_eq_empty_iff _ _).mpr (by decide)⟩

/-- C5 witness: the empty-iff-value-equal direction applied at two states
holding site lists with equal elements built by different expressions. -/
theorem claim_C5_witness :
    diffState { getDefaultState with distractingSites := ["a.com"] }
        { getDefaultState with distractingSites := ["a", ".com"].foldl (· ++ ·) "" :: [] }
      = emptyDelta :=
  (claim_C5_diff_value_based.1 _ _).mpr (by decide)

/-! Claim C6 — the UI write allowlist boundary. -/

/-- Filtering by the allowlist is idempotent. -/
theorem filterPayloadKeys_idem (pl : List (String × JVal)) (allowed : List String) :
    filterPayloadKeys (filterPayloadKeys pl allowed) allowed = filterPayloadKeys pl allowed := by
  unfold filterPayloadKeys
  induction pl with
  | nil => rfl
  | cons kv rest ih =>
      by_cases hk : allowed.contains kv.1
      · simp [hk, ih]
      · simp [hk, ih]

/-- C6: the six timer-internal fields are not on the UI write allowlist;
the `updateState` handler's outcome depends only on the allowlisted part
of the payload (non-allowlisted keys are dropped before the invariant
engine runs); a payload with no allowlisted key left is answered with
`success:false, "No valid keys"` and the state is untouched; and a
payload with allowlisted keys left proceeds through `computeNextState`
with exactly those keys. -/
theorem claim_C6_update_allowlist :
    (∀ k ∈ ["reminderStartTime", "reminderInterval", "reminderExpectedEndTime",
            "exerciseIntervalMs", "exerciseExpectedAt", "exerciseRemainingMs"],
        k ∉ UI_ALLOWED_UPDATE_KEYS) ∧
    (∀ (s : State) (pl : List (String × JVal)),
        handleUpdateStateMessage s true (some pl)
          = handleUpdateStateMessage s true (some (filterPayloadKeys pl UI_ALLOWED_UPDATE_KEYS))) ∧
    (∀ (s : State) (pl : List (String × JVal)),
        filterPayloadKeys pl UI_ALLOWED_UPDATE_KEYS = [] →
          handleUpdateStateMessage s true (some pl) = (s, false, some "No valid keys")) ∧
    (∀ (s : State) (pl : List (String × JVal)),
        filterPayloadKeys pl UI_ALLOWED_UPDATE_KEYS ≠ [] →
          handleUpdateStateMessage s true (some pl)
            = (computeNextState s
                (some (toPatch (filterPayloadKeys pl UI_ALLOWED_UPDATE_KEYS))), true, none)) := by
  refine ⟨by decide, fun s pl => ?_, fun s pl h => ?_, fun s pl h => ?_⟩
  · simp only [handleUpdateStateMessage, filterPayloadKeys_idem]
  · simp only [handleUpdateStateMessage, h]
    simp
  · have hlen : (filterPayloadKeys pl UI_ALLOWED_UPDATE_KEYS).length ≠ 0 := by
      simpa [List.length_eq_zero] using h
    simp only [handleUpdateStateMessage, if_neg hlen]
    simp

/-- C6 witness: a payload holding only the timer-internal key
`reminderStartTime` is rejected with "No valid keys" and the state is
unchanged. -/
theorem claim_C6_witness :
    handleUpdateStateMessage getDefaultState true
        (some [("reminderStartTime", JVal.number (JNum.fin 5))])
      = (getDefaultState, false, some "No valid keys") :=
  claim_C6_update_allowlist.2.2.1 getDefaultState
    [("reminderStartTime", JVal.number (JNum.fin 5))] rfl

/-! Claim C7 — minimal read set for untrusted senders. -/

theorem stateGet_isInFlow (s : State) : stateGet s "isInFlow" = JVal.boolean s.isInFlow := rfl

/-- Every entry collected by the keys-array branch over the untrusted
allowlist is the in-flow field. -/
theorem getStateFold_untrusted_mem (s : State) (ks : List JVal) :
    ∀ (acc : List (String × JVal)),
      (∀ e ∈ acc, e.1 = "isInFlow" ∧ e.2 = JVal.boolean s.isInFlow) →
      ∀ e ∈ ks.foldl
          (fun subset k =>
            match k with
            | JVal.string key =>
                if UNTRUSTED_STATE_KEYS.contains key then subset ++ [(key, stateGet s key)]
                else subset
            | _ => subset) acc,
        e.1 = "isInFlow" ∧ e.2 = JVal.boolean s.isInFlow := by
  induction ks with
  | nil => intro acc hacc; simpa using hacc
  | cons k rest ih =>
      intro acc hacc
      cases k with
      | string key =>
          simp only [List.foldl_cons]
          by_cases hk : UNTRUSTED_STATE_KEYS.contains key
          · simp only [hk, if_true]
            refine ih _ ?_
            intro e he
            rcases List.mem_append.mp he with he | he
            · exact hacc e he
            · rcases List.mem_singleton.mp he with rfl
              have hkey : key = "isInFlow" := by
                simpa [UNTRUSTED_STATE_KEYS] using hk
              subst hkey
              exact ⟨rfl, rfl⟩
          · simp only [hk, if_false]
            exact ih acc hacc
      | null => exact ih acc hacc
      | boolean b => exact ih acc hacc
      | number n => exact ih acc hacc
      | array xs => exact ih acc hacc
      | other => exact ih acc hacc

/-- C7: whatever keys an untrusted `getState` request names, every entry
of the response is the `isInFlow` field carrying the in-flow flag — task
content, site lists, timer fields and counters are never included. -/
theorem claim_C7_untrusted_read_minimal (s : State) (msg : GetStateMsg) :
    ∀ e ∈ handleGetStateMessage s false msg,
      e.1 = "isInFlow" ∧ e.2 = JVal.boolean s.isInFlow := by
  unfold handleGetStateMessage
  simp only [Bool.false_eq_true, if_false]
  cases hks : msg.keys
  case array ks => exact getStateFold_untrusted_mem s ks [] (by simp)
  all_goals (
    cases hk : msg.key
    case string key =>
      by_cases hkey : UNTRUSTED_STATE_KEYS.contains key
      · simp only [hkey, if_true]
        intro e he
        rcases List.mem_singleton.mp he with rfl
        have hkk : key = "isInFlow" := by simpa [UNTRUSTED_STATE_KEYS] using hkey
        subst hkk
        exact ⟨rfl, rfl⟩
      · simp only [hkey, if_false]
        intro e he
        simp at he
    all_goals (
      intro e he
      simp only [UNTRUSTED_STATE_KEYS, List.map_cons, List.map_nil] at he
      rcases List.mem_singleton.mp he with rfl
      exact ⟨rfl, rfl⟩))

/-- C7 witness: the default read of an untrusted sender is exactly the
in-flow flag. -/
theorem claim_C7_witness :
    ("isInFlow", JVal.boolean getDefaultState.isInFlow).1 = "isInFlow" ∧
    ("isInFlow", JVal.boolean getDefaultState.isInFlow).2
      = JVal.boolean getDefaultState.isInFlow :=
  claim_C7_untrusted_read_minimal getDefaultState {}
    ("isInFlow", JVal.boolean getDefaultState.isInFlow)
    (by
      have hresp : handleGetStateMessage getDefaultState false {}
          = [("isInFlow", JVal.boolean getDefaultState.isInFlow)] := rfl
      rw [hresp]
      exact List.mem_singleton.mpr rfl)

/-! Claim C8 — the intent-gate match. -/

/-- The list matcher holds exactly when some list entry matches the
normalized hostname exactly or as a subdomain suffix. -/
theorem isHostnameInList_iff (hostname : String) (sites : List String) :
    isHostnameInList hostname sites = true ↔
      (normalizeHostnameForComparison hostname ≠ "" ∧
       ∃ site ∈ sites,
         normalizeHostnameForComparison site ≠ "" ∧
         (normalizeHostnameForComparison hostname = normalizeHostnameForComparison site ∨
          jsEndsWith (normalizeHostnameForComparison hostname)
            ("." ++ normalizeHostnameForComparison site) = true)) := by
  unfold isHostnameInList
  by_cases hh : normalizeHostnameForComparison hostname = ""
  · simp [hh]
  · simp only [hh, if_false, ne_eq, not_false_eq_true, true_and, List.any_eq_true]
    constructor
    · rintro ⟨site, hmem, hsite⟩
      refine ⟨site, hmem, ?_⟩
      by_cases hs : normalizeHostnameForComparison site = ""
      · simp [hs] at hsite
      · simp only [hs, if_false, Bool.or_eq_true, decide_eq_true_eq] at hsite
        exact ⟨hs, hsite⟩
    · rintro ⟨site, hmem, hs, hmatch⟩
      refine ⟨site, hmem, ?_⟩
      simp only [hs, if_false, Bool.or_eq_true, decide_eq_true_eq]
      exact hmatch

/-- An empty URL hostname never matches a list. -/
theorem isHostnameInList_empty (sites : List String) :
    isHostnameInList "" sites = false := rfl

/-- C8: `getIntentGateMatch` gates exactly when the normalized hostname
matches the distraction list, or the state is in flow and it matches the
deep-work blocked list (matching being exact-or-subdomain per
`isHostnameInList_iff`); with `isInFlow` false the blocked list never
contributes; and the concrete spec scenario holds:
`https://m.facebook.com/x` against `distractingSites = ["facebook.com"]`
out of flow gives `shouldGate = true` with hostname `m.facebook.com`. -/
theorem claim_C8_gate_match :
    (∀ (host : String) (sites : List String),
        isHostnameInList host sites = true ↔
          (normalizeHostnameForComparison host ≠ "" ∧
           ∃ site ∈ sites,
             normalizeHostnameForComparison site ≠ "" ∧
             (normalizeHostnameForComparison host = normalizeHostnameForComparison site ∨
              jsEndsWith (normalizeHostnameForComparison host)
                ("." ++ normalizeHostnameForComparison site) = true))) ∧
    (∀ (url : String) (st : State),
        (getIntentGateMatch url st).shouldGate = true ↔
          (isHostnameInList (getIntentGateMatch url st).hostname st.distractingSites = true ∨
           (st.isInFlow = true ∧
            isHostnameInList (getIntentGateMatch url st).hostname st.deepWorkBlockedSites
              = true))) ∧
    (∀ (url : String) (st : State), st.isInFlow = false →
        (getIntentGateMatch url st).shouldGate
          = isHostnameInList (getIntentGateMatch url st).hostname st.distractingSites) ∧
    getIntentGateMatch "https://m.facebook.com/x"
        { getDefaultState with isInFlow := false, distractingSites := ["facebook.com"] }
      = ⟨"m.facebook.com", true, false⟩ := by
  refine ⟨isHostnameInList_iff, fun url st => ?_, fun url st hflow => ?_, by decide⟩
  · unfold getIntentGateMatch
    by_cases hh : getHostnameFromUrl url = ""
    · simp [hh, isHostnameInList_empty]
    · simp only [hh, if_false]
      simp [Bool.or_eq_true, Bool.and_eq_true]
  · unfold getIntentGateMatch
    by_cases hh : getHostnameFromUrl url = ""
    · simp [hh, isHostnameInList_empty]
    · simp [hh, hflow]

/-- C8 witness: in the concrete scenario the deep-work blocked list is
inert because the state is not in flow. -/
theorem claim_C8_witness :
    (getIntentGateMatch "https://m.facebook.com/x"
        { getDefaultState with isInFlow := false,
                               distractingSites := ["facebook.com"] }).shouldGate
      = isHostnameInList
          (getIntentGateMatch "https://m.facebook.com/x"
            { getDefaultState with isInFlow := false,
                                   distractingSites := ["facebook.com"] }).hostname
          ["facebook.com"] :=
  claim_C8_gate_match.2.2.1 "https://m.facebook.com/x"
    { getDefaultState with isInFlow := false, distractingSites := ["facebook.com"] } rfl

end MaiZone
